import Mathlib

/-
Verification of the notification dispatch / condensing engine and the
multi-subscriber runner of go-find-liquor, as a shallow embedding.

Sources embedded:
  internal/notification/notification.go  (NotificationManager and friends)
  internal/runner (multi-user runner: userRunner, SearchRunner)
  pkg/config/config.go                   (the config records the runner reads)

Machine-level aspects abstracted:
  - time.Time values are modelled by the two strings the code renders from
    them via Format("2006-01-02") and Format("15:04:05");
  - network sends are modelled by an arbitrary behaviour function telling,
    for each sink and payload, whether the send fails (some errorcode) or
    succeeds (none);
  - goroutine interleaving is modelled by an explicit arrival order of
    per-subscriber results on the result channel.
-/

namespace GFL

/-- Model of the Go time.Time stored in LiquorItem.Date: the code only
observes it through Format("2006-01-02") (date) and Format("15:04:05")
(time of day), so we record those two rendered strings. -/
structure GoTime where
  dateStr : String
  timeStr : String
deriving DecidableEq, Repr

/-- internal/search/search.go: LiquorItem represents a found liquor item. -/
structure LiquorItem where
  Name : String
  Code : String
  Store : String
  Date : GoTime
  Price : String
deriving DecidableEq, Repr

/-- pkg/config/config.go: NotificationConfig stores configuration for
notification methods. The Go Credential map is modelled as an association
list (first binding wins on lookup). -/
structure NotificationConfig where
  Type' : String
  Endpoint : String
  Credential : List (String × String)
  Condense : Bool
deriving DecidableEq, Repr

/-- pkg/config/config.go: UserConfig represents configuration for a single
user. -/
structure UserConfig where
  Name : String
  Items : List String
  Zipcode : String
  Distance : Int
  Notifications : List NotificationConfig
deriving DecidableEq, Repr

/-- pkg/config/config.go: the fields of Config that the runner reads
(Interval in nanoseconds as Go time.Duration, UserAgent, Users); the legacy
fields and Verbose are not consumed by the code under verification. -/
structure Config where
  Interval : Int
  UserAgent : String
  Users : List UserConfig
deriving DecidableEq, Repr

/-- Descriptor of one service added to the shared nikoksr notifier
(AddSlack / AddTelegram / AddDiscord / AddPushover / AddPushbullet). -/
inductive NotifyService where
  | slack (token channelID : String)
  | telegram (token : String) (chatID : Int)
  | discord (token channelID : String)
  | pushover (token recipientID : String)
  | pushbullet (token deviceNickname : String)
deriving DecidableEq, Repr

/-- Descriptor of one entry of NotificationManager.notifiers: either a
direct Gotify notifier or the single nikoksr notifier aggregating the other
services. -/
inductive NotifierDesc where
  | gotify (endpoint token : String)
  | nikoksr (services : List NotifyService)
deriving DecidableEq, Repr

/-- internal/notification/notification.go: NotificationManager manages
multiple notification providers. -/
structure NotificationManager where
  notifiers : List NotifierDesc
  condense : Bool
deriving DecidableEq, Repr

/-- Errors NewNotificationManager can return, one constructor per fmt.Errorf
site of the construction switch. -/
inductive ConfigErr where
  | gotifyNeedsToken
  | slackNeedsToken
  | slackNeedsChannelID
  | invalidSlackChannelID
  | telegramNeedsToken
  | telegramNeedsChatID
  | invalidTelegramChatID
  | discordNeedsToken
  | discordNeedsChannelID
  | pushoverNeedsToken
  | pushoverNeedsRecipientID
  | pushbulletNeedsToken
  | pushbulletNeedsDeviceNickname
  | unsupportedType (t : String)
deriving DecidableEq, Repr

/-- Lookup in the Credential association list, modelling the Go map read
`nc.Credential[key]` with its ok flag. -/
def credLookup (cred : List (String × String)) (key : String) : Option String :=
  (cred.find? (fun p => p.1 = key)).map Prod.snd

/-- Model of strings.ToLower, written over the character list so that it
evaluates inside the kernel (String.toLower itself gets stuck there). -/
def toLowerStr (s : String) : String :=
  ⟨s.data.map Char.toLower⟩

/-- Model of strings.TrimSuffix(endpoint, "/") as used by NewGotifyNotifier:
removes one trailing occurrence of the suffix when present. -/
def trimSuffix (s suffix : String) : String :=
  if suffix.data.isSuffixOf s.data then s.dropRight suffix.length else s

/-- Model of fmt.Sscanf(s, "%s", &out): skips leading whitespace and reads
one non-empty whitespace-delimited token, failing when there is none. -/
def sscanfString (s : String) : Option String :=
  let tok := (s.data.dropWhile Char.isWhitespace).takeWhile
    (fun c => ¬ c.isWhitespace)
  if tok.isEmpty then none else some ⟨tok⟩

/-- Model of fmt.Sscanf(s, "%d", &out): skips leading whitespace, reads an
optional sign followed by at least one digit (int64 overflow not modelled;
no claim depends on the telegram chat id parse). -/
def sscanfInt (s : String) : Option Int :=
  let t := s.data.dropWhile Char.isWhitespace
  let signAndDigits : Bool × List Char :=
    match t with
    | '-' :: rest => (true, rest.takeWhile Char.isDigit)
    | '+' :: rest => (false, rest.takeWhile Char.isDigit)
    | _ => (false, t.takeWhile Char.isDigit)
  if signAndDigits.2.isEmpty then none
  else
    let n : Nat := signAndDigits.2.foldl (fun acc c => acc * 10 + (c.toNat - 48)) 0
    some (if signAndDigits.1 then -(n : Int) else (n : Int))

/-- State threaded through the construction loop of NewNotificationManager:
the manager.notifiers built so far, the services added to the shared
nikoksr notifier, and the nikoksrAdded flag. -/
structure BuildState where
  notifiers : List NotifierDesc
  services : List NotifyService
  nikoksrAdded : Bool
deriving DecidableEq, Repr

/-- One iteration of the `for _, nc := range notificationConfigs` switch in
NewNotificationManager. -/
def addConfigStep (st : BuildState) (nc : NotificationConfig) :
    Except ConfigErr BuildState :=
  match toLowerStr nc.Type' with
  | "gotify" =>
    match credLookup nc.Credential "token" with
    | none => .error .gotifyNeedsToken
    | some token =>
      .ok { st with notifiers := st.notifiers ++ [.gotify (trimSuffix nc.Endpoint "/") token] }
  | "slack" =>
    match credLookup nc.Credential "token" with
    | none => .error .slackNeedsToken
    | some token =>
      match credLookup nc.Credential "channel_id" with
      | none => .error .slackNeedsChannelID
      | some channelIDStr =>
        match sscanfString channelIDStr with
        | none => .error .invalidSlackChannelID
        | some channelID =>
          .ok { st with services := st.services ++ [.slack token channelID],
                        nikoksrAdded := true }
  | "telegram" =>
    match credLookup nc.Credential "token" with
    | none => .error .telegramNeedsToken
    | some token =>
      match credLookup nc.Credential "chat_id" with
      | none => .error .telegramNeedsChatID
      | some chatIDStr =>
        match sscanfInt chatIDStr with
        | none => .error .invalidTelegramChatID
        | some chatID =>
          .ok { st with services := st.services ++ [.telegram token chatID],
                        nikoksrAdded := true }
  | "discord" =>
    match credLookup nc.Credential "token" with
    | none => .error .discordNeedsToken
    | some token =>
      match credLookup nc.Credential "channel_id" with
      | none => .error .discordNeedsChannelID
      | some channelIDStr =>
        match sscanfString channelIDStr with
        | none => .error .invalidSlackChannelID
        | some channelID =>
          .ok { st with services := st.services ++ [.discord token channelID],
                        nikoksrAdded := true }
  | "pushover" =>
    match credLookup nc.Credential "token" with
    | none => .error .pushoverNeedsToken
    | some token =>
      match credLookup nc.Credential "recipient_id" with
      | none => .error .pushoverNeedsRecipientID
      | some recipientID =>
        .ok { st with services := st.services ++ [.pushover token recipientID],
                      nikoksrAdded := true }
  | "pushbullet" =>
    match credLookup nc.Credential "token" with
    | none => .error .pushbulletNeedsToken
    | some token =>
      match credLookup nc.Credential "device_nickname" with
      | none => .error .pushbulletNeedsDeviceNickname
      | some deviceNickname =>
        .ok { st with services := st.services ++ [.pushbullet token deviceNickname],
                      nikoksrAdded := true }
  | other => .error (.unsupportedType other)

/-- internal/notification/notification.go: NewNotificationManager creates a
notification manager from config. The condense setting is taken from the
first notification config (zero-value false when the list is empty); the
loop builds the notifiers, appending the shared nikoksr notifier at the end
when any of its services were added. -/
def NewNotificationManager (notificationConfigs : List NotificationConfig) :
    Except ConfigErr NotificationManager :=
  (notificationConfigs.foldlM addConfigStep ⟨[], [], false⟩).map
    (fun st =>
      { notifiers := st.notifiers ++ (if st.nikoksrAdded then [.nikoksr st.services] else [])
        condense := match notificationConfigs with
          | [] => false
          | nc :: _ => nc.Condense })

/-- Behaviour of the external transports: for a given notifier descriptor
and payload, whether notifier.Notify fails (some code) or succeeds (none).
The dispatch logic is verified for every such behaviour. -/
def SinkBehavior : Type :=
  NotifierDesc → String → String → Option Nat

/-- One notification as observed by the sinks: a subject and a message
body, handed unchanged to every configured notifier. -/
structure NotifyCall where
  subject : String
  message : String
deriving DecidableEq, Repr

/-- The `for _, notifier := range m.notifiers` send loop shared by
NotifyFound, sendCondensedNotification and NotifyHeartbeat: every notifier
gets the payload; the returned error is the last failure, nil when all
sends succeed. -/
def notifyAll (behavior : SinkBehavior) (notifiers : List NotifierDesc)
    (subject message : String) : Option Nat :=
  notifiers.foldl
    (fun lastErr n =>
      match behavior n subject message with
      | some e => some e
      | none => lastErr)
    none

/-- internal/notification/notification.go: NotifyFound sends notifications
for one found liquor item. Returns the list of notifications emitted (one,
broadcast to every sink) and the error returned to the caller. -/
def NotifyFound (behavior : SinkBehavior) (m : NotificationManager)
    (item : LiquorItem) : List NotifyCall × Option Nat :=
  let subject := "GFL - Found " ++ item.Name ++ "!"
  let message := "Found " ++ item.Name ++ " at " ++ item.Store ++ " on "
      ++ item.Date.dateStr ++ " at " ++ item.Date.timeStr ++ " for " ++ item.Price
  ([⟨subject, message⟩], notifyAll behavior m.notifiers subject message)

/-- internal/notification/notification.go: sendCondensedNotification
creates and sends a single notification for multiple items; a single item
uses the same format as the individual notification, several items use the
condensed numbered-list format with the search-completed footer taken from
the first item. -/
def sendCondensedNotification (behavior : SinkBehavior)
    (m : NotificationManager) (items : List LiquorItem) :
    List NotifyCall × Option Nat :=
  match items with
  | [] => ([], none)
  | item :: rest =>
    if rest.isEmpty then
      let subject := "GFL - Found " ++ item.Name ++ "!"
      let message := "Found " ++ item.Name ++ " at " ++ item.Store ++ " on "
          ++ item.Date.dateStr ++ " at " ++ item.Date.timeStr ++ " for " ++ item.Price
      ([⟨subject, message⟩], notifyAll behavior m.notifiers subject message)
    else
      let subject := "GFL - Found " ++ toString items.length ++ " items!"
      let message := "Found " ++ toString items.length ++ " liquor items:\n\n"
          ++ String.join (items.enum.map
              (fun p => toString (p.1 + 1) ++ ". " ++ p.2.Name ++ " at "
                ++ p.2.Store ++ " for " ++ p.2.Price ++ "\n"))
          ++ "\nSearch completed on " ++ item.Date.dateStr ++ " at " ++ item.Date.timeStr
      ([⟨subject, message⟩], notifyAll behavior m.notifiers subject message)

/-- internal/notification/notification.go: NotifyFoundItems sends
notifications for multiple found liquor items: nothing for an empty batch,
one condensed notification when condense is enabled, otherwise one
individual notification per item with last-error aggregation. -/
def NotifyFoundItems (behavior : SinkBehavior) (m : NotificationManager)
    (items : List LiquorItem) : List NotifyCall × Option Nat :=
  if items.isEmpty then ([], none)
  else if m.condense then sendCondensedNotification behavior m items
  else
    items.foldl
      (fun acc item =>
        let r := NotifyFound behavior m item
        (acc.1 ++ r.1, match r.2 with
          | some e => some e
          | none => acc.2))
      ([], none)

/-- internal/notification/notification.go: NotifyHeartbeat sends the
liveness notification. -/
def NotifyHeartbeat (behavior : SinkBehavior) (m : NotificationManager) :
    List NotifyCall × Option Nat :=
  let subject := "GFL - Heartbeat"
  let message := "GFL is still running and searching"
  ([⟨subject, message⟩], notifyAll behavior m.notifiers subject message)

/-- Model of an unbuffered-signalling Go channel used only through close():
its one observable bit is whether it has been closed. -/
structure GoChan where
  closed : Bool
deriving DecidableEq, Repr

/-- Go runtime panics reachable in the embedded code. -/
inductive GoPanic where
  | closeOfClosedChannel
deriving DecidableEq, Repr

/-- Model of the Go statement close(c): closing an already closed channel
panics; otherwise the channel becomes closed. close never blocks. -/
def closeChan (c : GoChan) : Except GoPanic GoChan :=
  if c.closed then .error .closeOfClosedChannel else .ok { closed := true }

/-- internal/runner: userRunner, the per-subscriber runner. The semaphore
channel runningCh is omitted: no verified claim depends on the overlap
gate. -/
structure UserRunner where
  userConfig : UserConfig
  notifier : NotificationManager
  stopChan : GoChan
  interval : Int
deriving DecidableEq, Repr

/-- Errors newUserRunner can return: the wrapped notification-manager
construction failure for the named user. -/
inductive NewRunnerErr where
  | noUsersConfigured
  | failedUserRunner (name : String) (e : ConfigErr)
deriving DecidableEq, Repr

/-- internal/runner: newUserRunner creates a new user runner with the given
user configuration; it fails exactly when the notification manager for the
user cannot be built, wrapping that error with the user name. -/
def newUserRunner (userConfig : UserConfig) (interval : Int) :
    Except NewRunnerErr UserRunner :=
  match NewNotificationManager userConfig.Notifications with
  | .error e => .error (.failedUserRunner userConfig.Name e)
  | .ok notifier =>
    .ok { userConfig := userConfig, notifier := notifier,
          stopChan := { closed := false }, interval := interval }

/-- internal/runner: userRunner.stop, which is `close(ur.stopChan)`. -/
def userRunnerStop (ur : UserRunner) : Except GoPanic UserRunner :=
  (closeChan ur.stopChan).map (fun c => { ur with stopChan := c })

/-- Outcome of one SearchItem call of the external search collaborator for
one term: a retryable error, or the list of found items. The pass logic is
verified for every such collaborator. -/
def SearchFn : Type :=
  String → String → Int → Except Nat (List LiquorItem)

/-- Cancellation schedule: whether the surrounding context is observed as
done during the k-th executed inter-term wait of the pass (the only point
where runSearch itself returns ctx.Err()). -/
def CancelSchedule : Type :=
  Nat → Bool

/-- Errors runSearch can return: the two configuration precondition
failures, or the propagated context cancellation. -/
inductive RunErr where
  | noItems (name : String)
  | noZipcode (name : String)
  | cancelled
deriving DecidableEq, Repr

/-- One notification event of a pass, tagged with the manager operation
that emitted it. -/
inductive PassEvent where
  | found (call : NotifyCall)
  | heartbeat (call : NotifyCall)
deriving DecidableEq, Repr

/-- The term loop of runSearch: for each term in order, call SearchItem;
on failure log and continue (the Go continue also skips the wait); on
success append the results and, unless the term equals the last configured
term (and more than one term is configured), perform the cancellable
random wait — cancellation there aborts the pass with ctx.Err(). Arguments:
the collaborator, the full configured term list (for the wait guard), the
zipcode and distance, the cancellation schedule, then the remaining terms,
the index of the next wait, and the accumulated found items. -/
def searchTerms (search : SearchFn) (allItems : List String)
    (zipcode : String) (distance : Int) (ctxDone : CancelSchedule) :
    List String → Nat → List LiquorItem → Except Unit (List LiquorItem)
  | [], _, acc => .ok acc
  | item :: rest, w, acc =>
    match search item zipcode distance with
    | .error _ => searchTerms search allItems zipcode distance ctxDone rest w acc
    | .ok results =>
      if allItems.length > 1 ∧ item ≠ (allItems.getLast?.getD "") then
        if ctxDone w then .error ()
        else searchTerms search allItems zipcode distance ctxDone rest (w + 1) (acc ++ results)
      else searchTerms search allItems zipcode distance ctxDone rest w (acc ++ results)

/-- internal/runner: userRunner.runSearch — one pass for one user.
Validates the preconditions, runs the term loop collecting all found
items, then (batch non-empty) calls NotifyFoundItems once with the batch
(its error only logged), always calls NotifyHeartbeat (error only logged),
and returns nil. Returns the notification events of the pass together with
the error returned to the caller. -/
def runSearch (behavior : SinkBehavior) (search : SearchFn)
    (ctxDone : CancelSchedule) (ur : UserRunner) :
    List PassEvent × Option RunErr :=
  if ur.userConfig.Items.isEmpty then
    ([], some (.noItems ur.userConfig.Name))
  else if ur.userConfig.Zipcode = "" then
    ([], some (.noZipcode ur.userConfig.Name))
  else
    match searchTerms search ur.userConfig.Items ur.userConfig.Zipcode
        ur.userConfig.Distance ctxDone ur.userConfig.Items 0 [] with
    | .error _ => ([], some .cancelled)
    | .ok allFoundItems =>
      let foundEvents :=
        if allFoundItems.length > 0 then
          (NotifyFoundItems behavior ur.notifier allFoundItems).1.map .found
        else []
      let heartbeatEvents := (NotifyHeartbeat behavior ur.notifier).1.map .heartbeat
      (foundEvents ++ heartbeatEvents, none)

/-- internal/runner: userRunner.runOnce simply delegates to runSearch. -/
def userRunnerRunOnce (behavior : SinkBehavior) (search : SearchFn)
    (ctxDone : CancelSchedule) (ur : UserRunner) :
    List PassEvent × Option RunErr :=
  runSearch behavior search ctxDone ur

/-- internal/runner: SearchRunner manages search execution for one or more
users. The Go map userRunners is modelled as an association list with
replace-on-duplicate insertion; the RWMutex guards reads only and has no
observable effect in the sequential model. -/
structure SearchRunner where
  config : Config
  userRunners : List (String × UserRunner)
  stopChan : GoChan
deriving Repr

/-- Go map insertion m[k] = v: replaces the binding when the key is
present, otherwise adds it. -/
def mapInsert {α : Type} (m : List (String × α)) (k : String) (v : α) :
    List (String × α) :=
  if m.any (fun p => p.1 = k) then
    m.map (fun p => if p.1 = k then (k, v) else p)
  else m ++ [(k, v)]

/-- internal/runner: NewRunner creates a new runner with the given
configuration: rejects an empty user list, then builds one userRunner per
UserConfig, storing them in the name-keyed map; a userRunner construction
failure aborts with the wrapped error. -/
def NewRunner (cfg : Config) : Except NewRunnerErr SearchRunner :=
  if cfg.Users.isEmpty then .error .noUsersConfigured
  else
    (cfg.Users.foldlM
      (fun (acc : List (String × UserRunner)) userConfig =>
        (match newUserRunner userConfig cfg.Interval with
        | .error e => .error e
        | .ok ur => .ok (mapInsert acc userConfig.Name ur)
        : Except NewRunnerErr (List (String × UserRunner))))
      []).map
      (fun userRunners =>
        { config := cfg, userRunners := userRunners,
          stopChan := { closed := false } })

/-- internal/runner: SearchRunner.Stop, which is `close(sr.stopChan)`. -/
def searchRunnerStop (sr : SearchRunner) : Except GoPanic SearchRunner :=
  (closeChan sr.stopChan).map (fun c => { sr with stopChan := c })

/-- internal/runner: SearchRunner.GetUserCount returns len(sr.userRunners). -/
def GetUserCount (sr : SearchRunner) : Nat :=
  sr.userRunners.length

/-- internal/runner: SearchRunner.HasUser returns whether the name-keyed
map contains the given name. -/
def HasUser (sr : SearchRunner) (name : String) : Bool :=
  sr.userRunners.any (fun p => p.1 = name)

/-- The per-user goroutine of SearchRunner.RunOnce wraps a failed pass
error with the user name before sending it on the result channel; a nil
error is sent unchanged. -/
inductive UserErr where
  | forUser (name : String) (e : RunErr)
deriving DecidableEq, Repr

/-- Wrapping applied by the RunOnce goroutine for one user. -/
def wrapUserErr (name : String) (e : Option RunErr) : Option UserErr :=
  e.map (fun err => .forUser name err)

/-- The collection loop of SearchRunner.RunOnce: receives one result per
user, keeping the most recent non-nil error; `arrivals` is the sequence of
results in channel-arrival order. The loop keeps waiting until userCount
results have arrived, so when fewer are ever sent it blocks (modelled as
none); with enough arrivals it returns the tracked last error. The
ctx.Done branch is the caller-cancellation escape, absent here. -/
def collectLoop (lastErr : Option UserErr) :
    Nat → List (Option UserErr) → Option (Option UserErr)
  | 0, _ => some lastErr
  | _ + 1, [] => none
  | n + 1, r :: rs =>
    collectLoop (match r with | some e => some e | none => lastErr) n rs

/-- internal/runner: SearchRunner.RunOnce, absent caller cancellation:
launches one pass per user (their wrapped results arriving on the channel
in scheduler-chosen order `arrivals`) and runs the collection loop until
all userCount results are in. -/
def RunOnce (sr : SearchRunner) (arrivals : List (Option UserErr)) :
    Option (Option UserErr) :=
  collectLoop none (GetUserCount sr) arrivals

/-- The notification NotifyFound emits for one item (used to state the
individual-mode theorems). -/
def individualCall (item : LiquorItem) : NotifyCall :=
  ⟨"GFL - Found " ++ item.Name ++ "!",
   "Found " ++ item.Name ++ " at " ++ item.Store ++ " on "
     ++ item.Date.dateStr ++ " at " ++ item.Date.timeStr ++ " for " ++ item.Price⟩

theorem notifyFound_eq (behavior : SinkBehavior) (m : NotificationManager)
    (item : LiquorItem) :
    NotifyFound behavior m item =
      ([individualCall item],
       notifyAll behavior m.notifiers (individualCall item).subject
         (individualCall item).message) := rfl

theorem individual_foldl_first (behavior : SinkBehavior) (m : NotificationManager) :
    ∀ (items : List LiquorItem) (acc : List NotifyCall × Option Nat),
      (List.foldl
        (fun acc item =>
          let r := NotifyFound behavior m item
          (acc.1 ++ r.1, match r.2 with
            | some e => some e
            | none => acc.2))
        acc items).1
      = acc.1 ++ items.map individualCall
  | [], acc => by simp
  | item :: items, acc => by
    rw [List.foldl_cons, individual_foldl_first behavior m items]
    simp [notifyFound_eq]

end GFL

namespace GFL

/-- C1: for a batch dispatched with condense=false, the dispatcher emits
exactly one notification per item, in batch order; the body is
"Found {Name} at {Store} on {Date} at {Time} for {Price}" as claimed, but
the subject carries the "GFL - " product tag: "GFL - Found {Name}!".
(Amended claim proved here.) -/
theorem notifyFoundItems_individual_one_per_item (behavior : SinkBehavior)
    (notifiers : List NotifierDesc) (items : List LiquorItem) :
    (NotifyFoundItems behavior ⟨notifiers, false⟩ items).1
      = items.map individualCall := by
  unfold NotifyFoundItems
  cases items with
  | nil => rfl
  | cons a l =>
    simp only [List.isEmpty_cons, Bool.false_eq_true, if_false]
    rw [individual_foldl_first]
    rfl

/-- C1: the claim as frozen is false on the code: for a concrete single-item
batch under condense=false, the notification subject is
"GFL - Found Blantons!", not "Found Blantons!" as the claim states. -/
theorem notifyFoundItems_individual_subject_refuted :
    (NotifyFoundItems (fun _ _ _ => none) ⟨[], false⟩
        [⟨"Blantons", "0001", "Test Store", ⟨"2024-01-15", "14:30:00"⟩, "$59.99"⟩]).1.map
        NotifyCall.subject
      = ["GFL - Found Blantons!"]
    ∧ ("GFL - Found Blantons!" : String) ≠ "Found Blantons!" := by
  refine ⟨rfl, ?_⟩
  decide

/-- C2: for a batch of N ≥ 2 items dispatched with condense=true, exactly
one notification is sent; its body contains the N numbered lines
"{i}. {Name} at {Store} for {Price}" in batch order, followed by the
completion-timestamp footer taken from the first item; the subject is
"GFL - Found {N} items!" (the claim omitted the "GFL - " tag).
(Amended claim proved here.) -/
theorem notifyFoundItems_condensed_shape (behavior : SinkBehavior)
    (notifiers : List NotifierDesc) (a b : LiquorItem) (rest : List LiquorItem) :
    (NotifyFoundItems behavior ⟨notifiers, true⟩ (a :: b :: rest)).1
      = [⟨"GFL - Found " ++ toString (a :: b :: rest).length ++ " items!",
          "Found " ++ toString (a :: b :: rest).length ++ " liquor items:\n\n"
            ++ String.join ((a :: b :: rest).enum.map
                (fun p => toString (p.1 + 1) ++ ". " ++ p.2.Name ++ " at "
                  ++ p.2.Store ++ " for " ++ p.2.Price ++ "\n"))
            ++ "\nSearch completed on " ++ a.Date.dateStr ++ " at " ++ a.Date.timeStr⟩]
    ∧ ((a :: b :: rest).enum.map
        (fun p => toString (p.1 + 1) ++ ". " ++ p.2.Name ++ " at "
          ++ p.2.Store ++ " for " ++ p.2.Price ++ "\n")).length
      = (a :: b :: rest).length := by
  constructor
  · rfl
  · simp

/-- C2: the claim as frozen is false on the code: for a concrete two-item
batch under condense=true, the subject is "GFL - Found 2 items!", not
"Found 2 items!" as the claim states. -/
theorem notifyFoundItems_condensed_subject_refuted :
    (NotifyFoundItems (fun _ _ _ => none) ⟨[], true⟩
        [⟨"A", "1", "S1", ⟨"2024-01-15", "14:30:00"⟩, "$1"⟩,
         ⟨"B", "2", "S2", ⟨"2024-01-16", "15:00:00"⟩, "$2"⟩]).1.map NotifyCall.subject
      = ["GFL - Found 2 items!"]
    ∧ ("GFL - Found 2 items!" : String) ≠ "Found 2 items!" := by
  refine ⟨rfl, ?_⟩
  decide

/-- C3: single-item parity: for a one-item batch the dispatcher produces
the same notifications and the same returned error under condense=true as
under condense=false — the condensed wrapper is not applied. -/
theorem notifyFoundItems_single_item_parity (behavior : SinkBehavior)
    (notifiers : List NotifierDesc) (item : LiquorItem) :
    NotifyFoundItems behavior ⟨notifiers, true⟩ [item]
      = NotifyFoundItems behavior ⟨notifiers, false⟩ [item] := by
  have h1 : NotifyFoundItems behavior ⟨notifiers, true⟩ [item]
      = ([individualCall item],
         notifyAll behavior notifiers (individualCall item).subject
           (individualCall item).message) := rfl
  have h2 : NotifyFoundItems behavior ⟨notifiers, false⟩ [item]
      = ([] ++ [individualCall item],
         match notifyAll behavior notifiers (individualCall item).subject
             (individualCall item).message with
           | some e => some e
           | none => none) := rfl
  rw [h1, h2]
  cases notifyAll behavior notifiers (individualCall item).subject
      (individualCall item).message
    <;> rfl

/-- C10: constructing a dispatcher from an empty sink-config list succeeds,
with condense=false and an empty sink set, and on that dispatcher every
notify operation (individual, batch, condensed, heartbeat) returns nil for
every batch and every transport behaviour. -/
theorem empty_sink_list_manager (behavior : SinkBehavior) :
    NewNotificationManager [] = .ok ⟨[], false⟩
    ∧ (∀ item, (NotifyFound behavior ⟨[], false⟩ item).2 = none)
    ∧ (∀ items, (NotifyFoundItems behavior ⟨[], false⟩ items).2 = none)
    ∧ (∀ items, (sendCondensedNotification behavior ⟨[], false⟩ items).2 = none)
    ∧ (NotifyHeartbeat behavior ⟨[], false⟩).2 = none := by
  refine ⟨rfl, fun _ => rfl, ?_, ?_, rfl⟩
  · intro items
    unfold NotifyFoundItems
    cases items with
    | nil => rfl
    | cons a l =>
      simp only [List.isEmpty_cons, Bool.false_eq_true, if_false]
      have h : ∀ (its : List LiquorItem) (acc : List NotifyCall × Option Nat),
          acc.2 = none →
          (List.foldl
            (fun acc item =>
              let r := NotifyFound behavior ⟨[], false⟩ item
              (acc.1 ++ r.1, match r.2 with
                | some e => some e
                | none => acc.2))
            acc its).2 = none := by
        intro its
        induction its with
        | nil => intro acc hacc; simpa using hacc
        | cons x xs ih =>
          intro acc hacc
          rw [List.foldl_cons]
          exact ih _ (by simp [notifyFound_eq, notifyAll, hacc])
      exact h (a :: l) ([], none) rfl
  · intro items
    unfold sendCondensedNotification
    cases items with
    | nil => rfl
    | cons a l => cases l <;> rfl

/-- C6: whenever the dispatcher constructor succeeds on a non-empty sink
config list, the effective condense policy of the resulting dispatcher is
the condense flag of the first sink config, whatever the remaining sink
configs say. -/
theorem condense_policy_from_first_sink (nc : NotificationConfig)
    (rest : List NotificationConfig) (m : NotificationManager)
    (h : NewNotificationManager (nc :: rest) = .ok m) :
    m.condense = nc.Condense := by
  unfold NewNotificationManager at h
  cases hf : (nc :: rest).foldlM addConfigStep ⟨[], [], false⟩ with
  | error e => rw [hf] at h; exact absurd h (by simp [Except.map])
  | ok st =>
    rw [hf] at h
    simp only [Except.map, Except.ok.injEq] at h
    rw [← h]

/-- Sink config used by concrete witnesses: a gotify sink with a token and
condense enabled. -/
def gotifyCondenseOn : NotificationConfig :=
  ⟨"gotify", "http://host", [("token", "t1")], true⟩

/-- Sink config used by concrete witnesses: a gotify sink with a token and
condense disabled. -/
def gotifyCondenseOff : NotificationConfig :=
  ⟨"gotify", "http://host", [("token", "t2")], false⟩

/-- C6 witness: on the concrete two-sink list whose first config has
condense=true and whose second has condense=false, construction succeeds
and the resulting dispatcher has condense=true. -/
theorem condense_policy_from_first_sink_witness :
    ∃ m, NewNotificationManager [gotifyCondenseOn, gotifyCondenseOff] = .ok m
      ∧ m.condense = gotifyCondenseOn.Condense :=
  ⟨⟨[.gotify "http://host" "t1", .gotify "http://host" "t2"], true⟩, rfl,
    condense_policy_from_first_sink gotifyCondenseOn [gotifyCondenseOff] _ rfl⟩

/-- User config used by concrete runner witnesses: one item, a zipcode and
no notification sinks. -/
def userW : UserConfig :=
  ⟨"u", ["i"], "z", 10, []⟩

/-- C7: the claim says repeated stop() calls are safe, and the spec marks
idempotent stop as a hard requirement; the code implements stop() as
close(stopChan), so the second call on the same runner (and on the same
orchestrator) panics with close-of-closed-channel. This theorem evaluates
the embedded code at that failing input: the first stop succeeds, the
second panics, for both the per-user runner and the orchestrator. -/
theorem stop_second_call_panics :
    (∃ ur ur1, newUserRunner userW 1 = .ok ur
      ∧ userRunnerStop ur = .ok ur1
      ∧ userRunnerStop ur1 = .error .closeOfClosedChannel)
    ∧ (∃ sr sr1, NewRunner ⟨1, "", [userW]⟩ = .ok sr
      ∧ searchRunnerStop sr = .ok sr1
      ∧ searchRunnerStop sr1 = .error .closeOfClosedChannel) :=
  ⟨⟨⟨userW, ⟨[], false⟩, ⟨false⟩, 1⟩, ⟨userW, ⟨[], false⟩, ⟨true⟩, 1⟩, rfl, rfl, rfl⟩,
   ⟨⟨⟨1, "", [userW]⟩, [("u", ⟨userW, ⟨[], false⟩, ⟨false⟩, 1⟩)], ⟨false⟩⟩,
    ⟨⟨1, "", [userW]⟩, [("u", ⟨userW, ⟨[], false⟩, ⟨false⟩, 1⟩)], ⟨true⟩⟩, rfl, rfl, rfl⟩⟩

theorem searchTerms_no_cancel (search : SearchFn) (allItems : List String)
    (z : String) (d : Int) (ctxDone : CancelSchedule)
    (hnc : ∀ w, ctxDone w = false) :
    ∀ (terms : List String) (w : Nat) (acc : List LiquorItem),
      ∃ res, searchTerms search allItems z d ctxDone terms w acc = .ok res
  | [], w, acc => ⟨acc, rfl⟩
  | t :: ts, w, acc => by
    show ∃ res, (match search t z d with
      | .error _ => searchTerms search allItems z d ctxDone ts w acc
      | .ok results =>
        if allItems.length > 1 ∧ t ≠ (allItems.getLast?.getD "") then
          if ctxDone w = true then Except.error ()
          else searchTerms search allItems z d ctxDone ts (w + 1) (acc ++ results)
        else searchTerms search allItems z d ctxDone ts w (acc ++ results)) = .ok res
    cases search t z d with
    | error e => exact searchTerms_no_cancel search allItems z d ctxDone hnc ts w acc
    | ok results =>
      show ∃ res, (if allItems.length > 1 ∧ t ≠ (allItems.getLast?.getD "") then
          if ctxDone w = true then Except.error ()
          else searchTerms search allItems z d ctxDone ts (w + 1) (acc ++ results)
        else searchTerms search allItems z d ctxDone ts w (acc ++ results)) = .ok res
      by_cases hc : allItems.length > 1 ∧ t ≠ (allItems.getLast?.getD "")
      · rw [if_pos hc, hnc w]
        simp only [Bool.false_eq_true, if_false]
        exact searchTerms_no_cancel search allItems z d ctxDone hnc ts (w + 1) (acc ++ results)
      · rw [if_neg hc]
        exact searchTerms_no_cancel search allItems z d ctxDone hnc ts w (acc ++ results)

/-- C5: runSearch fails exactly on the two configuration preconditions
(empty term list, then empty location code — immediately, with nothing
sent) and on propagated cancellation; for every collaborator outcome and
every transport behaviour it otherwise returns nil (in particular, when no
cancellation arrives the pass always returns nil): per-term search
failures and dispatch failures never surface. -/
theorem runSearch_error_classification (behavior : SinkBehavior)
    (search : SearchFn) (ctxDone : CancelSchedule) (ur : UserRunner) :
    (ur.userConfig.Items = [] →
      runSearch behavior search ctxDone ur
        = ([], some (.noItems ur.userConfig.Name)))
    ∧ (ur.userConfig.Items ≠ [] → ur.userConfig.Zipcode = "" →
      runSearch behavior search ctxDone ur
        = ([], some (.noZipcode ur.userConfig.Name)))
    ∧ (ur.userConfig.Items ≠ [] → ur.userConfig.Zipcode ≠ "" →
      (runSearch behavior search ctxDone ur).2 = none
      ∨ (runSearch behavior search ctxDone ur).2 = some .cancelled)
    ∧ (ur.userConfig.Items ≠ [] → ur.userConfig.Zipcode ≠ "" →
      (∀ w, ctxDone w = false) →
      (runSearch behavior search ctxDone ur).2 = none) := by
  refine ⟨?_, ?_, ?_, ?_⟩
  · intro h
    unfold runSearch
    simp [h]
  · intro h1 h2
    unfold runSearch
    rw [if_neg (by simp [List.isEmpty_iff, h1]), if_pos h2]
  · intro h1 h2
    unfold runSearch
    rw [if_neg (by simp [List.isEmpty_iff, h1]), if_neg h2]
    cases searchTerms search ur.userConfig.Items ur.userConfig.Zipcode
        ur.userConfig.Distance ctxDone ur.userConfig.Items 0 [] with
    | error e => right; rfl
    | ok l => left; rfl
  · intro h1 h2 hnc
    unfold runSearch
    rw [if_neg (by simp [List.isEmpty_iff, h1]), if_neg h2]
    obtain ⟨res, hres⟩ := searchTerms_no_cancel search ur.userConfig.Items
      ur.userConfig.Zipcode ur.userConfig.Distance ctxDone hnc
      ur.userConfig.Items 0 []
    rw [hres]

/-- Transport behaviour used by concrete witnesses: every send succeeds. -/
def behaviorW : SinkBehavior := fun _ _ _ => none

/-- Search collaborator used by concrete witnesses: every term succeeds
with no results. -/
def searchW : SearchFn := fun _ _ _ => .ok []

/-- Cancellation schedule used by concrete witnesses: never cancelled. -/
def schedW : CancelSchedule := fun _ => false

/-- C5 witness: the classification evaluated on concrete runners hitting
each of the three branches. -/
theorem runSearch_error_classification_witness :
    runSearch behaviorW searchW schedW ⟨⟨"u", [], "z", 10, []⟩, ⟨[], false⟩, ⟨false⟩, 1⟩
      = ([], some (.noItems "u"))
    ∧ runSearch behaviorW searchW schedW ⟨⟨"u", ["i"], "", 10, []⟩, ⟨[], false⟩, ⟨false⟩, 1⟩
      = ([], some (.noZipcode "u"))
    ∧ ((runSearch behaviorW searchW schedW ⟨userW, ⟨[], false⟩, ⟨false⟩, 1⟩).2 = none
      ∨ (runSearch behaviorW searchW schedW ⟨userW, ⟨[], false⟩, ⟨false⟩, 1⟩).2
        = some .cancelled)
    ∧ (runSearch behaviorW searchW schedW ⟨userW, ⟨[], false⟩, ⟨false⟩, 1⟩).2 = none :=
  ⟨(runSearch_error_classification behaviorW searchW schedW _).1 rfl,
   (runSearch_error_classification behaviorW searchW schedW _).2.1 (by decide) rfl,
   (runSearch_error_classification behaviorW searchW schedW _).2.2.1 (by decide) (by decide),
   (runSearch_error_classification behaviorW searchW schedW _).2.2.2 (by decide) (by decide)
     (fun _ => rfl)⟩

/-- Every call of searchTerms whose successful per-term results are all
empty returns its accumulator unchanged (or propagates cancellation). -/
theorem searchTerms_all_empty (search : SearchFn) (allItems : List String)
    (z : String) (d : Int) (ctxDone : CancelSchedule)
    (hempty : ∀ t r, search t z d = .ok r → r = []) :
    ∀ (terms : List String) (w : Nat) (acc res : List LiquorItem),
      searchTerms search allItems z d ctxDone terms w acc = .ok res → res = acc
  | [], w, acc, res => by
    intro h
    unfold searchTerms at h
    exact (Except.ok.inj h).symm
  | t :: ts, w, acc, res => by
    intro h
    unfold searchTerms at h
    cases hs : search t z d with
    | error e =>
      rw [hs] at h
      exact searchTerms_all_empty search allItems z d ctxDone hempty ts w acc res h
    | ok results =>
      rw [hs] at h
      have hr := hempty t results hs
      subst hr
      have h' : (if allItems.length > 1 ∧ t ≠ (allItems.getLast?.getD "") then
          if ctxDone w = true then Except.error ()
          else searchTerms search allItems z d ctxDone ts (w + 1) (acc ++ [])
        else searchTerms search allItems z d ctxDone ts w (acc ++ [])) = Except.ok res := h
      rw [List.append_nil] at h'
      by_cases hc : allItems.length > 1 ∧ t ≠ (allItems.getLast?.getD "")
      · rw [if_pos hc] at h'
        by_cases hw : ctxDone w
        · rw [if_pos hw] at h'
          exact absurd h' (by simp)
        · rw [if_neg hw] at h'
          exact searchTerms_all_empty search allItems z d ctxDone hempty ts (w + 1) acc res h'
      · rw [if_neg hc] at h'
        exact searchTerms_all_empty search allItems z d ctxDone hempty ts w acc res h'

/-- Whether a pass event is the heartbeat notification. -/
def isHeartbeatEvent : PassEvent → Bool
  | .heartbeat _ => true
  | .found _ => false

/-- The heartbeat notification event every completed pass ends with. -/
def heartbeatEvent : PassEvent :=
  .heartbeat ⟨"GFL - Heartbeat", "GFL is still running and searching"⟩

/-- C4: every pass that runs to completion (runSearch returns nil) emits
exactly one heartbeat notification, as its last notification, whatever the
number of found items and the condense setting; and when the collaborator
finds nothing (N = 0) the pass emits no found-notification at all — the
trace is exactly the heartbeat. -/
theorem runSearch_heartbeat (behavior : SinkBehavior) (search : SearchFn)
    (ctxDone : CancelSchedule) (ur : UserRunner)
    (h : (runSearch behavior search ctxDone ur).2 = none) :
    ((runSearch behavior search ctxDone ur).1.countP isHeartbeatEvent) = 1
    ∧ (runSearch behavior search ctxDone ur).1.getLast? = some heartbeatEvent
    ∧ ((∀ t r, search t ur.userConfig.Zipcode ur.userConfig.Distance = .ok r → r = []) →
      (runSearch behavior search ctxDone ur).1 = [heartbeatEvent]) := by
  by_cases h1 : ur.userConfig.Items.isEmpty
  · exact absurd h (by unfold runSearch; rw [if_pos h1]; simp)
  · by_cases h2 : ur.userConfig.Zipcode = ""
    · exact absurd h (by unfold runSearch; rw [if_neg h1, if_pos h2]; simp)
    · cases hst : searchTerms search ur.userConfig.Items ur.userConfig.Zipcode
          ur.userConfig.Distance ctxDone ur.userConfig.Items 0 [] with
      | error e =>
        exact absurd h (by unfold runSearch; rw [if_neg h1, if_neg h2, hst]; simp)
      | ok allFoundItems =>
        have htr : (runSearch behavior search ctxDone ur).1
            = (if allFoundItems.length > 0 then
                (NotifyFoundItems behavior ur.notifier allFoundItems).1.map .found
              else [])
              ++ [heartbeatEvent] := by
          unfold runSearch
          rw [if_neg h1, if_neg h2, hst]
          rfl
        refine ⟨?_, ?_, ?_⟩
        · rw [htr, List.countP_append]
          have hz : ∀ (l : List NotifyCall),
              (l.map PassEvent.found).countP isHeartbeatEvent = 0 := by
            intro l
            rw [List.countP_eq_zero]
            intro a ha
            rcases List.mem_map.mp ha with ⟨c, _, hc⟩
            rw [← hc]
            simp [isHeartbeatEvent]
          split <;> simp [hz, List.countP_cons, isHeartbeatEvent, heartbeatEvent]
        · rw [htr]
          exact List.getLast?_concat _
        · intro hempty
          have : allFoundItems = [] :=
            searchTerms_all_empty search ur.userConfig.Items ur.userConfig.Zipcode
              ur.userConfig.Distance ctxDone hempty ur.userConfig.Items 0 [] allFoundItems hst
          rw [htr, this]
          rfl

/-- C4 witness: a concrete completed pass with no found items emits exactly
the heartbeat notification. -/
theorem runSearch_heartbeat_witness :
    ((runSearch behaviorW searchW schedW ⟨userW, ⟨[], false⟩, ⟨false⟩, 1⟩).1.countP
      isHeartbeatEvent) = 1
    ∧ (runSearch behaviorW searchW schedW ⟨userW, ⟨[], false⟩, ⟨false⟩, 1⟩).1.getLast?
      = some heartbeatEvent
    ∧ (runSearch behaviorW searchW schedW ⟨userW, ⟨[], false⟩, ⟨false⟩, 1⟩).1
      = [heartbeatEvent] :=
  have h := runSearch_heartbeat behaviorW searchW schedW
    ⟨userW, ⟨[], false⟩, ⟨false⟩, 1⟩ rfl
  ⟨h.1, h.2.1, h.2.2 (fun t r hr => by
    have : r = ([] : List LiquorItem) := by
      have := hr
      unfold searchW at this
      exact (Except.ok.inj this).symm
    exact this)⟩

theorem mapInsert_of_fresh_key {α : Type} (m : List (String × α)) (k : String)
    (v : α) (h : ∀ p ∈ m, p.1 ≠ k) : mapInsert m k v = m ++ [(k, v)] := by
  have hc : ¬ (m.any (fun p => p.1 = k) = true) := by
    rw [List.any_eq_true]
    rintro ⟨p, hp, he⟩
    exact h p hp (by simpa using he)
  unfold mapInsert
  rw [if_neg hc]

theorem buildRunners_ok (interval : Int) :
    ∀ (users : List UserConfig) (acc : List (String × UserRunner)),
      (∀ u ∈ users, ∃ nm, NewNotificationManager u.Notifications = .ok nm) →
      ((acc.map Prod.fst ++ users.map UserConfig.Name).Nodup) →
      ∃ m, (users.foldlM
          (fun (acc : List (String × UserRunner)) userConfig =>
            (match newUserRunner userConfig interval with
            | .error e => .error e
            | .ok ur => .ok (mapInsert acc userConfig.Name ur)
            : Except NewRunnerErr (List (String × UserRunner))))
          acc) = .ok m
        ∧ m.map Prod.fst = acc.map Prod.fst ++ users.map UserConfig.Name
  | [], acc => by
    intro _ _
    exact ⟨acc, rfl, by simp⟩
  | u :: us, acc => by
    intro hok hnd
    obtain ⟨nm, hnm⟩ := hok u (List.mem_cons_self u us)
    have hur : newUserRunner u interval
        = .ok ⟨u, nm, ⟨false⟩, interval⟩ := by
      unfold newUserRunner
      rw [hnm]
    have hfresh : ∀ p ∈ acc, p.1 ≠ u.Name := by
      intro p hp he
      have hnd2 := List.nodup_append.mp ((List.append_cons _ _ _ ▸ hnd :
        ((acc.map Prod.fst ++ [u.Name]) ++ us.map UserConfig.Name).Nodup))
      have := List.nodup_append.mp hnd2.1
      exact this.2.2 (List.mem_map.mpr ⟨p, hp, rfl⟩) (by simp [he])
    have hins := mapInsert_of_fresh_key acc u.Name
      (⟨u, nm, ⟨false⟩, interval⟩ : UserRunner) hfresh
    have hnd' : (((mapInsert acc u.Name (⟨u, nm, ⟨false⟩, interval⟩ : UserRunner)).map
        Prod.fst ++ us.map UserConfig.Name)).Nodup := by
      rw [hins, List.map_append]
      simpa [List.append_assoc] using (List.append_cons _ _ _ ▸ hnd :
        ((acc.map Prod.fst ++ [u.Name]) ++ us.map UserConfig.Name).Nodup)
    obtain ⟨m, hm, hkeys⟩ := buildRunners_ok interval us
      (mapInsert acc u.Name ⟨u, nm, ⟨false⟩, interval⟩)
      (fun u' hu' => hok u' (List.mem_cons_of_mem u hu')) hnd'
    refine ⟨m, ?_, ?_⟩
    · rw [List.foldlM_cons, hur]
      exact hm
    · rw [hkeys, hins, List.map_append]
      simp [List.append_assoc]

/-- C8: orchestrator construction fails on zero subscribers, and — provided
the subscriber names are pairwise distinct (the data-model invariant) and
every subscriber's sink configs are accepted by the dispatcher constructor
— succeeds on one-or-more subscribers, building exactly one runner per
SubscriberConfig: GetUserCount equals the number of configs and HasUser
holds exactly for the configured names. (Amended claim proved here.) -/
theorem newRunner_construction (cfg : Config) :
    (cfg.Users = [] → NewRunner cfg = .error .noUsersConfigured)
    ∧ (cfg.Users ≠ [] →
      (cfg.Users.map UserConfig.Name).Nodup →
      (∀ u ∈ cfg.Users, ∃ nm, NewNotificationManager u.Notifications = .ok nm) →
      ∃ sr, NewRunner cfg = .ok sr
        ∧ GetUserCount sr = cfg.Users.length
        ∧ ∀ name, HasUser sr name = true ↔ name ∈ cfg.Users.map UserConfig.Name) := by
  constructor
  · intro h
    unfold NewRunner
    rw [if_pos (by simp [h])]
  · intro hne hnd hok
    obtain ⟨m, hm, hkeys⟩ := buildRunners_ok cfg.Interval cfg.Users [] hok
      (by simpa using hnd)
    refine ⟨⟨cfg, m, ⟨false⟩⟩, ?_, ?_, ?_⟩
    · unfold NewRunner
      rw [if_neg (by simp [List.isEmpty_iff, hne]), hm]
      rfl
    · have := congrArg List.length hkeys
      simpa [GetUserCount] using this
    · intro name
      have hmem : name ∈ m.map Prod.fst ↔ name ∈ cfg.Users.map UserConfig.Name := by
        rw [hkeys]
        simp
      constructor
      · intro hh
        rw [← hmem]
        unfold HasUser at hh
        rw [List.any_eq_true] at hh
        rcases hh with ⟨p, hp, he⟩
        exact List.mem_map.mpr ⟨p, hp, by simpa using he⟩
      · intro hh
        rw [← hmem] at hh
        rcases List.mem_map.mp hh with ⟨p, hp, he⟩
        unfold HasUser
        rw [List.any_eq_true]
        exact ⟨p, hp, by simpa using he⟩

/-- C8: the claim as frozen is false on the code at two concrete inputs:
a one-subscriber configuration whose gotify sink lacks its token makes
NewRunner fail (the claim says construction succeeds for every
configuration with at least one subscriber), and a two-subscriber
configuration whose subscribers share one name yields GetUserCount 1, not
2 (the map keyed by name collapses duplicates). -/
theorem newRunner_claim_refuted :
    NewRunner ⟨3600, "ua",
        [⟨"user1", ["item1"], "97201", 10,
          [⟨"gotify", "http://localhost:8080", [], false⟩]⟩]⟩
      = .error (.failedUserRunner "user1" .gotifyNeedsToken)
    ∧ (∃ sr, NewRunner ⟨3600, "ua",
        [⟨"u", ["i"], "z", 10, []⟩, ⟨"u", ["j"], "z", 10, []⟩]⟩ = .ok sr
        ∧ GetUserCount sr = 1 ∧ (2 : Nat) ≠ 1) :=
  ⟨rfl,
   ⟨⟨⟨3600, "ua", [⟨"u", ["i"], "z", 10, []⟩, ⟨"u", ["j"], "z", 10, []⟩]⟩,
     [("u", ⟨⟨"u", ["j"], "z", 10, []⟩, ⟨[], false⟩, ⟨false⟩, 3600⟩)], ⟨false⟩⟩,
    rfl, rfl, by decide⟩⟩

/-- Configuration used by the C8 witness: two subscribers with distinct
names and empty (hence accepted) sink lists. -/
def cfgTwoUsers : Config :=
  ⟨1, "", [⟨"a", ["i"], "z", 10, []⟩, ⟨"b", ["j"], "z", 10, []⟩]⟩

/-- C8 witness: the amended construction theorem evaluated on the concrete
two-subscriber configuration, and its zero-subscriber branch on the empty
configuration. -/
theorem newRunner_construction_witness :
    NewRunner ⟨1, "", []⟩ = .error .noUsersConfigured
    ∧ ∃ sr, NewRunner cfgTwoUsers = .ok sr
      ∧ GetUserCount sr = cfgTwoUsers.Users.length
      ∧ ∀ name, HasUser sr name = true ↔ name ∈ cfgTwoUsers.Users.map UserConfig.Name :=
  ⟨(newRunner_construction ⟨1, "", []⟩).1 rfl,
   (newRunner_construction cfgTwoUsers).2 (by decide) (by decide)
    (by
      intro u hu
      rcases List.mem_cons.mp hu with h | hu2
      · subst h; exact ⟨⟨[], false⟩, rfl⟩
      · rcases List.mem_cons.mp hu2 with h | h
        · subst h; exact ⟨⟨[], false⟩, rfl⟩
        · exact absurd h (List.not_mem_nil u))⟩

theorem getLast?_cons_getD {α : Type} (a : α) (l : List α) :
    (a :: l).getLast? = some (l.getLast?.getD a) := by
  cases l <;> simp [List.getLast?]

theorem collectLoop_all :
    ∀ (rs : List (Option UserErr)) (lastErr : Option UserErr),
      collectLoop lastErr rs.length rs
        = some (rs.foldl
            (fun acc r => match r with | some e => some e | none => acc) lastErr)
  | [], _lastErr => rfl
  | r :: rs, lastErr =>
    collectLoop_all rs (match r with | some e => some e | none => lastErr)

theorem foldl_last_error :
    ∀ (rs : List (Option UserErr)) (lastErr : Option UserErr),
      rs.foldl (fun acc r => match r with | some e => some e | none => acc) lastErr
        = match (rs.filterMap id).getLast? with
          | some e => some e
          | none => lastErr
  | [], lastErr => rfl
  | none :: rs, lastErr => by
    rw [List.foldl_cons, foldl_last_error rs]
    simp [List.filterMap_cons]
  | some e :: rs, lastErr => by
    rw [List.foldl_cons, foldl_last_error rs]
    have hfm : ((some e :: rs).filterMap id) = e :: rs.filterMap id := by
      simp [List.filterMap_cons]
    rw [hfm, getLast?_cons_getD]
    cases hgl : (rs.filterMap id).getLast? <;> simp [hgl]

theorem collectLoop_not_enough :
    ∀ (rs : List (Option UserErr)) (n : Nat) (lastErr : Option UserErr),
      rs.length < n → collectLoop lastErr n rs = none
  | [], n, _lastErr => by
    intro h
    cases n with
    | zero => exact absurd h (by omega)
    | succ n => rfl
  | r :: rs, n, lastErr => by
    intro h
    cases n with
    | zero => exact absurd h (by omega)
    | succ n =>
      show collectLoop _ n rs = none
      exact collectLoop_not_enough rs n _ (by simpa [Nat.succ_lt_succ_iff] using h)

theorem wrapUserErr_eq_none (name : String) (e : Option RunErr) :
    wrapUserErr name e = none ↔ e = none := by
  cases e <;> simp [wrapUserErr]

/-- C9: RunOnce over U subscribers, absent caller cancellation: the
collection loop does not return while fewer than U passes have reported;
once all U results (in any channel-arrival order that is a permutation of
the per-subscriber wrapped pass errors) are in, it returns, and the value
returned is the last non-nil error in arrival order — nil exactly when
every subscriber's pass succeeded, and never short-circuited by any single
subscriber's failure. -/
theorem runOnce_last_error_aggregation (sr : SearchRunner)
    (passErr : String → Option RunErr) (arrivals : List (Option UserErr))
    (hperm : arrivals.Perm
      (sr.userRunners.map (fun p => wrapUserErr p.1 (passErr p.1)))) :
    (∀ k, k < GetUserCount sr → RunOnce sr (arrivals.take k) = none)
    ∧ ∃ ret, RunOnce sr arrivals = some ret
      ∧ ret = (arrivals.filterMap id).getLast?
      ∧ (ret = none ↔ ∀ p ∈ sr.userRunners, passErr p.1 = none) := by
  have hlen : arrivals.length = GetUserCount sr := by
    rw [hperm.length_eq, List.length_map]
    rfl
  constructor
  · intro k hk
    unfold RunOnce
    apply collectLoop_not_enough
    rw [List.length_take]
    omega
  · refine ⟨(arrivals.filterMap id).getLast?, ?_, rfl, ?_⟩
    · unfold RunOnce
      rw [← hlen, collectLoop_all, foldl_last_error]
      cases (arrivals.filterMap id).getLast? <;> rfl
    · rw [List.getLast?_eq_none_iff, List.filterMap_eq_nil_iff]
      constructor
      · intro hnone p hp
        have hmem : wrapUserErr p.1 (passErr p.1) ∈ arrivals :=
          hperm.mem_iff.mpr (List.mem_map.mpr ⟨p, hp, rfl⟩)
        have := hnone _ hmem
        exact (wrapUserErr_eq_none _ _).mp (by simpa using this)
      · intro hall a ha
        have := hperm.mem_iff.mp ha
        rcases List.mem_map.mp this with ⟨p, hp, he⟩
        have : a = none := by
          rw [← he]
          exact (wrapUserErr_eq_none _ _).mpr (hall p hp)
        simpa using this

/-- Orchestrator used by the C9 witness: two subscribers named a and b. -/
def srTwoUsers : SearchRunner :=
  ⟨cfgTwoUsers,
   [("a", ⟨⟨"a", ["i"], "z", 10, []⟩, ⟨[], false⟩, ⟨false⟩, 1⟩),
    ("b", ⟨⟨"b", ["j"], "z", 10, []⟩, ⟨[], false⟩, ⟨false⟩, 1⟩)],
   ⟨false⟩⟩

/-- Per-subscriber pass outcomes used by the C9 witness: subscriber b fails
with cancellation, subscriber a succeeds. -/
def passErrW (name : String) : Option RunErr :=
  if name = "b" then some .cancelled else none

/-- C9 witness: the aggregation theorem evaluated on the concrete
two-subscriber orchestrator with the identity arrival order, including its
blocking part at the concrete prefix length one. -/
theorem runOnce_last_error_aggregation_witness :
    RunOnce srTwoUsers
      ((srTwoUsers.userRunners.map
        (fun p => wrapUserErr p.1 (passErrW p.1))).take 1) = none
    ∧ ∃ ret, RunOnce srTwoUsers
        (srTwoUsers.userRunners.map (fun p => wrapUserErr p.1 (passErrW p.1)))
        = some ret
      ∧ ret = ((srTwoUsers.userRunners.map
          (fun p => wrapUserErr p.1 (passErrW p.1))).filterMap id).getLast?
      ∧ (ret = none ↔ ∀ p ∈ srTwoUsers.userRunners, passErrW p.1 = none) :=
  have h := runOnce_last_error_aggregation srTwoUsers passErrW
    (srTwoUsers.userRunners.map (fun p => wrapUserErr p.1 (passErrW p.1)))
    (List.Perm.refl _)
  ⟨h.1 1 (by decide), h.2⟩

end GFL
